import Mathlib

/-
Verification of the 65C02 system emulation repository.

The repository sources available are src/SystemLib/System.cpp (the System
facade: constructor and executeProgram) and the two test files
src/SystemTest/LoadRegisterTests.cpp and src/SystemTest/LoggingTests.cpp.
The CPU core (_65C02), the Bus and the memory Region classes are not part
of the provided sources; where a definition embeds that missing code it is
modelled from the specification (spec.md) and its doc comment says so.

Machine integers are represented as Nat with explicit wrapping: bytes are
values mod 256, addresses mod 65536.  Memory is a total function
Nat -> Nat whose reads are reduced mod 256 (the C++ byte type guarantees
byte-sized cells).
-/

namespace Emu65C02

/-- Kind of a bus access in a trace record (spec section 3, Trace Record). -/
inductive AccessKind where
  | R : AccessKind
  | W : AccessKind
deriving DecidableEq, Repr

/-- Modelled from the spec: a trace record is the tuple
`{kind, address, value, cycle_index}` (spec section 3, Trace Record);
the Bus and Trace Formatter sources are missing from src. -/
structure TraceRecord where
  kind : AccessKind
  addr : Nat
  value : Nat
  cycle : Nat
deriving DecidableEq, Repr

/-- Modelled from the spec: the CPU register file, status flags and cycle
counter (spec section 3), together with the bus view of memory and the
trace sink state (spec sections 4.2 and 4.3); the _65C02 and Bus sources
are missing from src.  `mem` is the routed address space seen through the
bus; `instrCount` counts completed instructions of the current execute
call; `busLog` is the Bus `log` flag; `trace` is the emitted record list. -/
structure Machine where
  A : Nat
  X : Nat
  Y : Nat
  SP : Nat
  PC : Nat
  C : Bool
  Z : Bool
  I : Bool
  D : Bool
  B : Bool
  V : Bool
  N : Bool
  cycles : Nat
  instrCount : Nat
  mem : Nat → Nat
  busLog : Bool
  trace : List TraceRecord

/-- The CPU-visible part of a `Machine`: everything except the trace sink
state (`busLog`, `trace`).  Used to state that trace emission does not
feed back into execution. -/
structure Core where
  A : Nat
  X : Nat
  Y : Nat
  SP : Nat
  PC : Nat
  C : Bool
  Z : Bool
  I : Bool
  D : Bool
  B : Bool
  V : Bool
  N : Bool
  cycles : Nat
  instrCount : Nat
  mem : Nat → Nat

/-- Projection of a machine onto its CPU-visible core. -/
def coreOf (s : Machine) : Core :=
  ⟨s.A, s.X, s.Y, s.SP, s.PC, s.C, s.Z, s.I, s.D, s.B, s.V, s.N,
   s.cycles, s.instrCount, s.mem⟩

/-- Target register of a load instruction (spec section 4.5, Load/Store). -/
inductive Reg where
  | A : Reg
  | X : Reg
  | Y : Reg
deriving DecidableEq, Repr

/-- Addressing modes used by the load instructions
(spec section 4.4, table of twelve modes). -/
inductive AddrMode where
  | imm : AddrMode
  | zp : AddrMode
  | zpX : AddrMode
  | zpY : AddrMode
  | abs : AddrMode
  | absX : AddrMode
  | absY : AddrMode
  | xInd : AddrMode
  | indY : AddrMode
  | zpInd : AddrMode
deriving DecidableEq, Repr

/-- Modelled from the spec: decode of the LDA/LDX/LDY opcodes to
(target register, addressing mode).  Opcode values are the WDC 65C02
datasheet values named INS_LDA_IM and so on in the missing _65C02 header
(spec section 4.3 step 2: a 256-entry decode table). -/
def decode (n : Nat) : Option (Reg × AddrMode) :=
  if n = 0xA9 then some (.A, .imm) else
  if n = 0xA2 then some (.X, .imm) else
  if n = 0xA0 then some (.Y, .imm) else
  if n = 0xA5 then some (.A, .zp) else
  if n = 0xA6 then some (.X, .zp) else
  if n = 0xA4 then some (.Y, .zp) else
  if n = 0xB5 then some (.A, .zpX) else
  if n = 0xB4 then some (.Y, .zpX) else
  if n = 0xB6 then some (.X, .zpY) else
  if n = 0xAD then some (.A, .abs) else
  if n = 0xAE then some (.X, .abs) else
  if n = 0xAC then some (.Y, .abs) else
  if n = 0xBD then some (.A, .absX) else
  if n = 0xBC then some (.Y, .absX) else
  if n = 0xB9 then some (.A, .absY) else
  if n = 0xBE then some (.X, .absY) else
  if n = 0xA1 then some (.A, .xInd) else
  if n = 0xB1 then some (.A, .indY) else
  if n = 0xB2 then some (.A, .zpInd) else
  none

/-- Modelled from the spec: a bus read returns the byte of the routed
address space and, when logging is enabled, appends a READ trace record;
each memory access adds exactly one cycle (spec sections 3 and 4.2).
The record's cycle index is the counter value at the time of the access. -/
def busRead (s : Machine) (a : Nat) : Nat × Machine :=
  let v := s.mem a % 256
  (v, { s with cycles := s.cycles + 1,
               trace := s.trace ++
                 (if s.busLog then [⟨.R, a, v, s.cycles⟩] else []) })

/-- An internal (idle) cycle: no bus access, no trace record
(spec section 4.4, the idle cycles of the indexed zero-page modes). -/
def tick (s : Machine) : Machine :=
  { s with cycles := s.cycles + 1 }

/-- Fetch one byte at PC and increment PC with 16-bit wrap
(spec section 4.3 step 1). -/
def fetchByte (s : Machine) : Nat × Machine :=
  let (v, s') := busRead s s.PC
  (v, { s' with PC := (s'.PC + 1) % 65536 })

/-- Store a value into the target register. -/
def setReg (r : Reg) (v : Nat) (s : Machine) : Machine :=
  match r with
  | .A => { s with A := v }
  | .X => { s with X := v }
  | .Y => { s with Y := v }

/-- Read the value of a register. -/
def regValue (s : Machine) (r : Reg) : Nat :=
  match r with
  | .A => s.A
  | .X => s.X
  | .Y => s.Y

/-- Modelled from the spec: loads set Z iff the loaded value is 0 and N
iff bit 7 of the loaded value is 1 (spec sections 4.5 and 8). -/
def setZN (v : Nat) (s : Machine) : Machine :=
  { s with Z := v == 0, N := Nat.testBit v 7 }

/-- Modelled from the spec: execute one instruction — fetch, decode,
resolve the addressing mode with exactly the documented bus accesses and
extra-cycle rules, load the value, set Z and N (spec sections 4.3 to 4.5).
Opcodes outside the load group are modelled as the spec's baseline
single-byte two-cycle NOP (spec section 4.5, NOP); no claim settled on
this executor depends on those opcodes.  `instrCount` grows by one per
instruction. -/
def step (s0 : Machine) : Machine :=
  let s := { s0 with instrCount := s0.instrCount + 1 }
  let (opc, s1) := fetchByte s
  match decode opc with
  | none => tick s1
  | some (r, mode) =>
    match mode with
    | .imm =>
        let (v, s2) := fetchByte s1
        setZN v (setReg r v s2)
    | .zp =>
        let (zp, s2) := fetchByte s1
        let (v, s3) := busRead s2 zp
        setZN v (setReg r v s3)
    | .zpX =>
        let (zp, s2) := fetchByte s1
        let s3 := tick s2
        let (v, s4) := busRead s3 ((zp + s3.X) % 256)
        setZN v (setReg r v s4)
    | .zpY =>
        let (zp, s2) := fetchByte s1
        let s3 := tick s2
        let (v, s4) := busRead s3 ((zp + s3.Y) % 256)
        setZN v (setReg r v s4)
    | .abs =>
        let (lo, s2) := fetchByte s1
        let (hi, s3) := fetchByte s2
        let (v, s4) := busRead s3 (lo ||| (hi <<< 8))
        setZN v (setReg r v s4)
    | .absX =>
        let (lo, s2) := fetchByte s1
        let (hi, s3) := fetchByte s2
        let ea := ((lo ||| (hi <<< 8)) + s3.X) % 65536
        let s4 := if 0xFF < lo + s3.X then tick s3 else s3
        let (v, s5) := busRead s4 ea
        setZN v (setReg r v s5)
    | .absY =>
        let (lo, s2) := fetchByte s1
        let (hi, s3) := fetchByte s2
        let ea := ((lo ||| (hi <<< 8)) + s3.Y) % 65536
        let s4 := if 0xFF < lo + s3.Y then tick s3 else s3
        let (v, s5) := busRead s4 ea
        setZN v (setReg r v s5)
    | .xInd =>
        let (zp, s2) := fetchByte s1
        let s3 := tick s2
        let p := (zp + s3.X) % 256
        let (pl, s4) := busRead s3 p
        let (ph, s5) := busRead s4 ((p + 1) % 256)
        let (v, s6) := busRead s5 (pl ||| (ph <<< 8))
        setZN v (setReg r v s6)
    | .indY =>
        let (zp, s2) := fetchByte s1
        let (pl, s3) := busRead s2 zp
        let (ph, s4) := busRead s3 ((zp + 1) % 256)
        let ea := ((pl ||| (ph <<< 8)) + s4.Y) % 65536
        let s5 := if 0xFF < pl + s4.Y then tick s4 else s4
        let (v, s6) := busRead s5 ea
        setZN v (setReg r v s6)
    | .zpInd =>
        let (zp, s2) := fetchByte s1
        let (pl, s3) := busRead s2 zp
        let (ph, s4) := busRead s3 ((zp + 1) % 256)
        let (v, s5) := busRead s4 (pl ||| (ph <<< 8))
        setZN v (setReg r v s5)

/-- Modelled from the spec: `execute(n)` runs up to n instructions
(spec section 4.3); the modelled executor never faults, so it runs
exactly n instructions. -/
def run : Nat → Machine → Machine
  | 0, s => s
  | n + 1, s => run n (step s)

/-- Modelled from the spec: `reset(pc_override)` clears A, X and Y, sets
SP to 0xFD, clears all status flags except I, clears the cycle counter
and loads PC with the supplied override (spec section 4.3, Reset). -/
def resetMachine (m : Nat → Nat) (pc : Nat) : Machine :=
  { A := 0, X := 0, Y := 0, SP := 0xFD, PC := pc,
    C := false, Z := false, I := true, D := false, B := false,
    V := false, N := false,
    cycles := 0, instrCount := 0, mem := m, busLog := false, trace := [] }

/-- The six region bounds of a System, signed 32-bit (`sdword`) in the
source constructor `System::System(sdword ramMin, ..., double Mhz)`;
a bound of -1 marks a disabled region (spec section 6). -/
structure SystemCfg where
  ramMin : Int
  ramMax : Int
  regMin : Int
  regMax : Int
  romMin : Int
  romMax : Int
deriving DecidableEq, Repr

/-- Window membership test of an address against one region's bounds
(spec section 4.1, `contains`).  A disabled region (bounds -1) contains
no address since addresses are nonnegative. -/
def inWindow (lo hi : Int) (a : Nat) : Bool :=
  decide (lo ≤ (a : Int)) && decide ((a : Int) ≤ hi)

/-- Modelled from the spec: the Bus routes a 16-bit address to the unique
region whose window contains it — RAM, registers, ROM in the constructor
argument order — and each region is indexed at offset address minus lo
(spec section 4.2); the Bus source is missing from src.  An unmapped
address reads as 0: the fault path of spec section 7 is not exercised by
any claim settled on this model. -/
def busView (cfg : SystemCfg) (ram regs rom : Nat → Nat) : Nat → Nat :=
  fun a =>
    if inWindow cfg.ramMin cfg.ramMax a then ram (a - cfg.ramMin.toNat)
    else if inWindow cfg.regMin cfg.regMax a then regs (a - cfg.regMin.toNat)
    else if inWindow cfg.romMin cfg.romMax a then rom (a - cfg.romMin.toNat)
    else 0

/-- Modelled from the spec: `load_program` reads the object file as raw
bytes into the ROM buffer starting at offset 0 (spec sections 4.1 and 6);
the ROM source is missing from src.  The program is abstracted as a byte
function `prog` of length `len`; buffer cells beyond the program are 0. -/
def loadedRom (prog : Nat → Nat) (len : Nat) : Nat → Nat :=
  fun i => if i < len then prog i % 256 else 0

/-- From src/SystemLib/System.cpp lines 9-15: `executeProgram` loads the
object file into ROM, resets the CPU with
`eeprom[0xFFFC - 0x8000] | eeprom[0xFFFD - 0x8000] << 8` (the ROM buffer
indexed directly, offsets hardcoded against 0x8000, not through the bus),
sets `bus.log = logging`, clears it again if the trace output file cannot
be opened (`openOk = false`), and then runs the instruction budget.
The CPU and Bus internals it calls are the spec-modelled definitions
above. -/
def executeProgram (cfg : SystemCfg) (ram regs : Nat → Nat)
    (prog : Nat → Nat) (len : Nat) (budget : Nat)
    (logging : Bool) (openOk : Bool) : Machine :=
  let rom := loadedRom prog len
  let pc0 := rom (0xFFFC - 0x8000) ||| (rom (0xFFFD - 0x8000) <<< 8)
  let mem := busView cfg ram regs rom
  run budget
    { resetMachine mem pc0 with busLog := if openOk then logging else false }

/-- Formalisation of claim C3's words: the reset vector is read at ROM
offsets (0xFFFC - rom.lo) and (0xFFFD - rom.lo). -/
def claimResetPC (romLo : Nat) (rom : Nat → Nat) : Nat :=
  rom (0xFFFC - romLo) ||| (rom (0xFFFD - romLo) <<< 8)

/-- Error kind of spec section 7 for invalid region bounds. -/
inductive ConfigError where
  | bad : ConfigError
deriving DecidableEq, Repr

/-- From src/SystemLib/System.cpp lines 3-7: the constructor only wires
the bus regions, connects the CPU to the bus and sets the cycle duration;
it performs no bounds validation, and spec section 9(c) records that the
source does not reject overlapping regions ("this spec mandates
rejection, which is stricter than the source").  Construction therefore
always succeeds. -/
def systemConstruct (cfg : SystemCfg) : Except ConfigError SystemCfg :=
  Except.ok cfg

/-- Formalisation of claim C8's words: a region is disabled by bounds of
-1; every non-disabled region must have lo ≤ hi and no two non-disabled
regions may overlap. -/
def regionEnabled (lo hi : Int) : Bool :=
  !(decide (lo = -1) && decide (hi = -1))

/-- Two inclusive windows overlap. -/
def windowsOverlap (lo1 hi1 lo2 hi2 : Int) : Bool :=
  decide (lo1 ≤ hi2) && decide (lo2 ≤ hi1)

/-- Formalisation of claim C8's words: well-formed bounds — each enabled
region is ordered and enabled regions are pairwise non-overlapping. -/
def regionsWellFormed (cfg : SystemCfg) : Bool :=
  (!regionEnabled cfg.ramMin cfg.ramMax || decide (cfg.ramMin ≤ cfg.ramMax)) &&
  (!regionEnabled cfg.regMin cfg.regMax || decide (cfg.regMin ≤ cfg.regMax)) &&
  (!regionEnabled cfg.romMin cfg.romMax || decide (cfg.romMin ≤ cfg.romMax)) &&
  (!(regionEnabled cfg.ramMin cfg.ramMax && regionEnabled cfg.regMin cfg.regMax)
    || !windowsOverlap cfg.ramMin cfg.ramMax cfg.regMin cfg.regMax) &&
  (!(regionEnabled cfg.ramMin cfg.ramMax && regionEnabled cfg.romMin cfg.romMax)
    || !windowsOverlap cfg.ramMin cfg.ramMax cfg.romMin cfg.romMax) &&
  (!(regionEnabled cfg.regMin cfg.regMax && regionEnabled cfg.romMin cfg.romMax)
    || !windowsOverlap cfg.regMin cfg.regMax cfg.romMin cfg.romMax)

/-- From src/SystemTest/LoggingTests.cpp lines 22-56,
`convertFileToNativeLineEndings` transcribed on the file content as a
character list: a CR is written out, and when the next character is an LF
that LF is read and written out as well; an LF is written as LF; any
other character is copied.  (The `prevChar` variable of the source is
never read.) -/
def convertLineEndings : List Char → List Char
  | [] => []
  | [c] =>
    if c = '\r' then [c]
    else if c = '\n' then ['\n']
    else [c]
  | c :: d :: rest =>
    if c = '\r' then
      if d = '\n' then c :: d :: convertLineEndings rest
      else c :: convertLineEndings (d :: rest)
    else if c = '\n' then '\n' :: convertLineEndings (d :: rest)
    else c :: convertLineEndings (d :: rest)

/-- From src/SystemTest/LoggingTests.cpp lines 58-91, `compareFiles`:
both files are passed through `convertFileToNativeLineEndings`, then the
sizes must match and the contents must be byte-for-byte equal. -/
def compareFiles (p1 p2 : List Char) : Bool :=
  let n1 := convertLineEndings p1
  let n2 := convertLineEndings p2
  if n1.length ≠ n2.length then false
  else n1 == n2

/-- From src/SystemTest/LoadRegisterTests.cpp line 236: the cycle count
the Zero Page,Y load test expects, `4 + ((word)(zpAddr + yVal) > 0xFF)`. -/
def zpyTestExpectedCycles (zpAddr yVal : Nat) : Nat :=
  4 + (if 0xFF < zpAddr + yVal then 1 else 0)

/-- Opcode of the immediate-mode load of each register
(WDC 65C02 datasheet values, spec section 4.5). -/
def immOpcode : Reg → Nat
  | .A => 0xA9
  | .X => 0xA2
  | .Y => 0xA0

/-- Writing a register does not touch the bus log flag. -/
theorem setReg_busLog (r : Reg) (v : Nat) (s : Machine) :
    (setReg r v s).busLog = s.busLog := by cases r <;> rfl

/-- Writing a register does not touch the instruction counter. -/
theorem setReg_instrCount (r : Reg) (v : Nat) (s : Machine) :
    (setReg r v s).instrCount = s.instrCount := by cases r <;> rfl

/-- Writing a register does not touch the trace. -/
theorem setReg_trace (r : Reg) (v : Nat) (s : Machine) :
    (setReg r v s).trace = s.trace := by cases r <;> rfl

/-- One instruction never changes the bus log flag. -/
theorem step_busLog (s : Machine) : (step s).busLog = s.busLog := by
  unfold step
  cases hd : decode (s.mem s.PC % 256) with
  | none => simp [fetchByte, busRead, tick, hd]
  | some rm =>
    obtain ⟨r, mode⟩ := rm
    cases mode <;>
      simp [fetchByte, busRead, tick, setZN, setReg_busLog, hd] <;>
      split <;> simp [tick, setReg_busLog]

/-- One instruction increments the instruction counter by exactly one. -/
theorem step_instrCount (s : Machine) :
    (step s).instrCount = s.instrCount + 1 := by
  unfold step
  cases hd : decode (s.mem s.PC % 256) with
  | none => simp [fetchByte, busRead, tick, hd]
  | some rm =>
    obtain ⟨r, mode⟩ := rm
    cases mode <;>
      simp [fetchByte, busRead, tick, setZN, setReg_instrCount, hd] <;>
      split <;> simp [tick, setReg_instrCount]

/-- With logging disabled, one instruction emits no trace record. -/
theorem step_trace_off (s : Machine) (h : s.busLog = false) :
    (step s).trace = s.trace := by
  unfold step
  cases hd : decode (s.mem s.PC % 256) with
  | none => simp [fetchByte, busRead, tick, hd, h]
  | some rm =>
    obtain ⟨r, mode⟩ := rm
    cases mode <;>
      simp [fetchByte, busRead, tick, setZN, setReg_trace, hd, h] <;>
      split <;> simp [tick, setReg_trace, h]

/-- Trace emission does not feed back into execution: machines that agree
on the CPU-visible core still agree on it after one instruction, whatever
their log flag and trace content. -/
theorem step_core_congr (s₁ s₂ : Machine) (h : coreOf s₁ = coreOf s₂) :
    coreOf (step s₁) = coreOf (step s₂) := by
  obtain ⟨A₁, X₁, Y₁, SP₁, PC₁, C₁, Z₁, I₁, D₁, B₁, V₁, N₁, cy₁, ic₁, m₁, bl₁, tr₁⟩ := s₁
  obtain ⟨A₂, X₂, Y₂, SP₂, PC₂, C₂, Z₂, I₂, D₂, B₂, V₂, N₂, cy₂, ic₂, m₂, bl₂, tr₂⟩ := s₂
  simp only [coreOf, Core.mk.injEq] at h
  obtain ⟨h1, h2, h3, h4, h5, h6, h7, h8, h9, h10, h11, h12, h13, h14, h15⟩ := h
  subst h1 h2 h3 h4 h5 h6 h7 h8 h9 h10 h11 h12 h13 h14 h15
  unfold step
  cases hd : decode (m₁ PC₁ % 256) with
  | none => simp [fetchByte, busRead, tick, hd, coreOf]
  | some rm =>
    obtain ⟨r, mode⟩ := rm
    cases mode <;>
      cases r <;>
      simp [fetchByte, busRead, tick, setZN, setReg, hd, coreOf] <;>
      split <;> simp [tick, setReg, coreOf]

/-- The bus log flag is constant across a whole run. -/
theorem run_busLog (n : Nat) (s : Machine) : (run n s).busLog = s.busLog := by
  induction n generalizing s with
  | zero => rfl
  | succ k ih => rw [run, ih, step_busLog]

/-- A run of n instructions increments the instruction counter by n. -/
theorem run_instrCount (n : Nat) (s : Machine) :
    (run n s).instrCount = s.instrCount + n := by
  induction n generalizing s with
  | zero => rfl
  | succ k ih => rw [run, ih, step_instrCount]; omega

/-- With logging disabled, a whole run emits no trace record. -/
theorem run_trace_off (n : Nat) (s : Machine) (h : s.busLog = false) :
    (run n s).trace = s.trace := by
  induction n generalizing s with
  | zero => rfl
  | succ k ih =>
    rw [run, ih _ (by rw [step_busLog]; exact h), step_trace_off _ h]

/-- Trace emission does not feed back into a whole run. -/
theorem run_core_congr (n : Nat) (s₁ s₂ : Machine) (h : coreOf s₁ = coreOf s₂) :
    coreOf (run n s₁) = coreOf (run n s₂) := by
  induction n generalizing s₁ s₂ with
  | zero => exact h
  | succ k ih => exact ih _ _ (step_core_congr _ _ h)

/-- The trace only grows: the trace before an instruction is a prefix of
the trace after it. -/
theorem step_trace_extends (s : Machine) :
    s.trace <+: (step s).trace := by
  unfold step
  cases hd : decode (s.mem s.PC % 256) with
  | none => simp [fetchByte, busRead, tick, hd]
  | some rm =>
    obtain ⟨r, mode⟩ := rm
    cases mode <;>
      simp [fetchByte, busRead, tick, setZN, setReg_trace, hd] <;>
      split <;> simp [tick, setReg_trace]

/-- The trace only grows across a whole run. -/
theorem run_trace_extends (n : Nat) (s : Machine) :
    s.trace <+: (run n s).trace := by
  induction n generalizing s with
  | zero => exact List.prefix_refl _
  | succ k ih => exact (step_trace_extends s).trans (ih (step s))

/-- With logging enabled and an empty trace, the first record an
instruction emits is the READ of its own opcode fetch. -/
theorem step_trace_head (s : Machine) (h1 : s.busLog = true)
    (h2 : s.trace = []) :
    (step s).trace.head? =
      some ⟨.R, s.PC, s.mem s.PC % 256, s.cycles⟩ := by
  unfold step
  cases hd : decode (s.mem s.PC % 256) with
  | none => simp [fetchByte, busRead, tick, hd, h1, h2]
  | some rm =>
    obtain ⟨r, mode⟩ := rm
    cases mode <;>
      simp [fetchByte, busRead, tick, setZN, setReg_trace, hd, h1, h2] <;>
      split <;> simp [tick, setReg_trace, h1]

/-- The head of a list is the head of any list it is a prefix of. -/
theorem head?_of_prefix (l₁ l₂ : List TraceRecord) (a : TraceRecord)
    (hp : l₁ <+: l₂) (h : l₁.head? = some a) : l₂.head? = some a := by
  obtain ⟨t, rfl⟩ := hp
  cases l₁ <;> simp_all

/-- Memory of spec scenario 4: `LDA $4480,X` at 0xFFFC with the operand
byte 0xFF placed at the 16-bit-wrapped effective address 0x457F. -/
def c1ScenarioMem : Nat → Nat := fun a =>
  if a = 0xFFFC then 0xBD else
  if a = 0xFFFD then 0x80 else
  if a = 0xFFFE then 0x44 else
  if a = 0x457F then 0xFF else 0

/-- Machine of spec scenario 4 after reset, PC forced to 0xFFFC and
X loaded with 0xFF, as the tests set up. -/
def c1ScenarioMachine : Machine :=
  { resetMachine c1ScenarioMem 0xFFFC with X := 0xFF }

/-- Memory for the Zero Page,Y failing input: `LDX $FF,Y` at 0xFFFC with
the loaded byte 0x7A placed at the zero-page-wrapped effective address
(0xFF + 0xFF) mod 256 = 0xFE. -/
def c2Mem : Nat → Nat := fun a =>
  if a = 0xFFFC then 0xB6 else
  if a = 0xFFFD then 0xFF else
  if a = 0xFE then 0x7A else 0

/-- Machine for the Zero Page,Y failing input, Y = 0xFF. -/
def c2Machine : Machine := { resetMachine c2Mem 0xFFFC with Y := 0xFF }

/-- Memory of spec scenario 1: `LDA #0x7F` at 0xFFFC. -/
def c4Mem : Nat → Nat := fun a =>
  if a = 0xFFFC then 0xA9 else
  if a = 0xFFFD then 0x7F else 0

/-- ROM configuration with the ROM window moved to [0x4000, 0xFFFF]
(RAM and registers disabled): a System the claim C3 quantifies over but
whose rom.lo is not the hardcoded 0x8000. -/
def c3Cfg : SystemCfg := ⟨-1, -1, -1, -1, 0x4000, 0xFFFF⟩

/-- Program image for the C3 counterexample: bytes 0x34/0x12 at the
offsets the code actually reads (0xFFFC - 0x8000 and 0xFFFD - 0x8000) and
bytes 0x78/0x56 at the offsets the claim names for rom.lo = 0x4000
(0xFFFC - 0x4000 and 0xFFFD - 0x4000). -/
def c3Prog : Nat → Nat := fun i =>
  if i = 0x7FFC then 0x34 else
  if i = 0x7FFD then 0x12 else
  if i = 0xBFFC then 0x78 else
  if i = 0xBFFD then 0x56 else 0

/-- Overlapping bounds: RAM covers the whole address space and overlaps
both the register and ROM windows (all three regions enabled). -/
def c8BadCfg : SystemCfg := ⟨0x0000, 0xFFFF, 0x6000, 0x7FFF, 0x8000, 0xFFFF⟩

/-- Region bounds used by the LoggingTests fixture. -/
def loggingTestsCfg : SystemCfg := ⟨0x0000, 0x3FFF, 0x6000, 0x7FFF, 0x8000, 0xFFFF⟩

/-- One trace line terminated by CRLF. -/
def crlfTrace : List Char := "R 8000 A9 1\r\n".toList

/-- The same trace line terminated by LF only. -/
def lfTrace : List Char := "R 8000 A9 1\n".toList

/-- C1: for every LDA/LDX/LDY load in Absolute,X or Absolute,Y mode, the
effective address read is base + index modulo 65536, the cycle count is
the 4-cycle base plus exactly one extra cycle when base_lo + index
exceeds 0xFF, and PC advances by 3; in particular `LDA $4480,X` with
X = 0xFF and memory[0x457F] = 0xFF loads A = 0xFF in 5 cycles with N
set from bit 7 of that byte. -/
theorem c1_absolute_indexed_load (opc : Nat) (r : Reg) (useY : Bool)
    (hop : (opc = 0xBD ∧ r = .A ∧ useY = false) ∨
           (opc = 0xBC ∧ r = .Y ∧ useY = false) ∨
           (opc = 0xB9 ∧ r = .A ∧ useY = true) ∨
           (opc = 0xBE ∧ r = .X ∧ useY = true))
    (pc lo hi xv yv : Nat) (m : Nat → Nat)
    (hlo : lo < 256) (hhi : hi < 256)
    (h0 : m pc = opc)
    (h1 : m ((pc + 1) % 65536) = lo) (h2 : m ((pc + 2) % 65536) = hi) :
    (regValue (step { resetMachine m pc with X := xv, Y := yv }) r =
       m (((lo ||| (hi <<< 8)) + (if useY then yv else xv)) % 65536) % 256 ∧
     (step { resetMachine m pc with X := xv, Y := yv }).cycles =
       4 + (if 0xFF < lo + (if useY then yv else xv) then 1 else 0) ∧
     (step { resetMachine m pc with X := xv, Y := yv }).PC =
       (pc + 3) % 65536) ∧
    ((step c1ScenarioMachine).A = 0xFF ∧
     (step c1ScenarioMachine).cycles = 5 ∧
     (step c1ScenarioMachine).N = true) := by
  constructor
  · rcases hop with ⟨rfl, rfl, rfl⟩ | ⟨rfl, rfl, rfl⟩ | ⟨rfl, rfl, rfl⟩ | ⟨rfl, rfl, rfl⟩ <;>
      simp_all [step, resetMachine, fetchByte, busRead, tick, setZN, setReg,
        regValue, decode, Nat.mod_eq_of_lt hlo, Nat.mod_eq_of_lt hhi,
        Nat.mod_add_mod, Nat.add_assoc] <;>
      split <;> simp [tick, setReg, regValue]
  · decide

/-- Witness for C1 at the spec scenario-4 input. -/
theorem c1_absolute_indexed_load_witness :
    ((0xBD = 0xBD ∧ Reg.A = Reg.A ∧ false = false) ∨
     (0xBD = 0xBC ∧ Reg.A = Reg.Y ∧ false = false) ∨
     (0xBD = 0xB9 ∧ Reg.A = Reg.A ∧ false = true) ∨
     (0xBD = 0xBE ∧ Reg.A = Reg.X ∧ false = true)) ∧
    0x80 < 256 ∧ 0x44 < 256 ∧
    c1ScenarioMem 0xFFFC = 0xBD ∧
    c1ScenarioMem ((0xFFFC + 1) % 65536) = 0x80 ∧
    c1ScenarioMem ((0xFFFC + 2) % 65536) = 0x44 ∧
    ((regValue (step { resetMachine c1ScenarioMem 0xFFFC with X := 0xFF, Y := 0 }) .A =
        c1ScenarioMem (((0x80 ||| (0x44 <<< 8)) + (if false then 0 else 0xFF)) % 65536) % 256 ∧
      (step { resetMachine c1ScenarioMem 0xFFFC with X := 0xFF, Y := 0 }).cycles =
        4 + (if 0xFF < 0x80 + (if false then 0 else 0xFF) then 1 else 0) ∧
      (step { resetMachine c1ScenarioMem 0xFFFC with X := 0xFF, Y := 0 }).PC =
        (0xFFFC + 3) % 65536) ∧
     ((step c1ScenarioMachine).A = 0xFF ∧
      (step c1ScenarioMachine).cycles = 5 ∧
      (step c1ScenarioMachine).N = true)) :=
  ⟨Or.inl ⟨rfl, rfl, rfl⟩, by decide, by decide, by decide, by decide, by decide,
   c1_absolute_indexed_load 0xBD .A false (Or.inl ⟨rfl, rfl, rfl⟩)
     0xFFFC 0x80 0x44 0xFF 0 c1ScenarioMem (by decide) (by decide)
     (by decide) (by decide) (by decide)⟩

/-- C2, evaluated at the failing input: the source test expects
`LDX $FF,Y` with Y = 0xFF to take 4 + 1 = 5 cycles, but the claim (and
the spec's addressing table) says Zero Page,Y always takes exactly 4
cycles; the spec-modelled CPU takes 4 cycles and reads the zero-page
wrapped effective address 0xFE. -/
theorem c2_zero_page_y_divergence :
    zpyTestExpectedCycles 0xFF 0xFF = 5 ∧
    (step c2Machine).cycles = 4 ∧
    regValue (step c2Machine) .X = 0x7A ∧
    (step c2Machine).PC = 0xFFFE := by decide

/-- C3 counterexample: with the ROM window at [0x4000, 0xFFFF] the code
initializes PC from ROM offsets 0x7FFC/0x7FFD (hardcoded 0xFFFC - 0x8000)
giving 0x1234, while the claim's formula rom[0xFFFC - rom.lo] with
rom.lo = 0x4000 names offsets 0xBFFC/0xBFFD and gives 0x5678. -/
theorem c3_reset_vector_counterexample :
    (executeProgram c3Cfg (fun _ => 0) (fun _ => 0) c3Prog 0xC000 0 true true).PC
      = 0x1234 ∧
    claimResetPC 0x4000 (loadedRom c3Prog 0xC000) = 0x5678 ∧
    (0x1234 : Nat) ≠ 0x5678 :=
  ⟨by decide, by decide, by decide⟩

/-- C3 amended: executeProgram initializes PC from the ROM buffer bytes
at the hardcoded offsets 0xFFFC - 0x8000 and 0xFFFD - 0x8000, whatever
the configured rom.lo; this coincides with the claim's offsets
(0xFFFC - rom.lo, 0xFFFD - rom.lo) exactly when rom.lo = 0x8000. -/
theorem c3_reset_vector_amended (cfg : SystemCfg) (ram regs prog : Nat → Nat)
    (len : Nat) (logging openOk : Bool) :
    (executeProgram cfg ram regs prog len 0 logging openOk).PC =
      (loadedRom prog len (0xFFFC - 0x8000) |||
       (loadedRom prog len (0xFFFD - 0x8000) <<< 8)) ∧
    claimResetPC 0x8000 (loadedRom prog len) =
      (loadedRom prog len (0xFFFC - 0x8000) |||
       (loadedRom prog len (0xFFFD - 0x8000) <<< 8)) :=
  ⟨rfl, rfl⟩

/-- C4: for every byte v and register R in {A, X, Y}, the immediate-mode
load of v into R from a fresh reset leaves R = v, Z set iff v = 0, N set
iff bit 7 of v is 1, PC advanced by exactly 2 (with 16-bit wrap), and
exactly 2 cycles consumed. -/
theorem c4_immediate_load (v : Nat) (hv : v < 256) (r : Reg)
    (pc : Nat) (m : Nat → Nat)
    (hop : m pc = immOpcode r) (harg : m ((pc + 1) % 65536) = v) :
    regValue (step (resetMachine m pc)) r = v ∧
    (step (resetMachine m pc)).Z = (v == 0) ∧
    (step (resetMachine m pc)).N = Nat.testBit v 7 ∧
    (step (resetMachine m pc)).PC = (pc + 2) % 65536 ∧
    (step (resetMachine m pc)).cycles = 2 := by
  cases r <;>
    simp_all [immOpcode, step, resetMachine, fetchByte, busRead, tick,
      setZN, setReg, regValue, decode, Nat.mod_eq_of_lt hv, Nat.mod_add_mod]

/-- Witness for C4 at spec scenario 1, `LDA #0x7F`. -/
theorem c4_immediate_load_witness :
    0x7F < 256 ∧
    c4Mem 0xFFFC = immOpcode .A ∧
    c4Mem ((0xFFFC + 1) % 65536) = 0x7F ∧
    (regValue (step (resetMachine c4Mem 0xFFFC)) .A = 0x7F ∧
     (step (resetMachine c4Mem 0xFFFC)).Z = (0x7F == 0) ∧
     (step (resetMachine c4Mem 0xFFFC)).N = Nat.testBit 0x7F 7 ∧
     (step (resetMachine c4Mem 0xFFFC)).PC = (0xFFFC + 2) % 65536 ∧
     (step (resetMachine c4Mem 0xFFFC)).cycles = 2) :=
  ⟨by decide, by decide, by decide,
   c4_immediate_load 0x7F (by decide) .A 0xFFFC c4Mem (by decide) (by decide)⟩

set_option maxHeartbeats 1000000 in
/-- C5: every load instruction (LDA/LDX/LDY, in every addressing mode)
sets Z iff the loaded value (the new value of the target register) is 0
and N iff bit 7 of the loaded value is 1, and leaves C, I, D, B and V
exactly as they were before the instruction. -/
theorem c5_load_flags_frame (s : Machine) (r : Reg) (mode : AddrMode)
    (hd : decode (s.mem s.PC % 256) = some (r, mode)) :
    (step s).C = s.C ∧ (step s).I = s.I ∧ (step s).D = s.D ∧
    (step s).B = s.B ∧ (step s).V = s.V ∧
    (step s).Z = (regValue (step s) r == 0) ∧
    (step s).N = Nat.testBit (regValue (step s) r) 7 := by
  unfold step
  cases mode <;> cases r <;>
    simp_all [fetchByte, busRead, tick, setZN, setReg, regValue] <;>
    split <;> simp [tick, setReg, regValue]

/-- Witness for C5 at the immediate `LDA #0x7F` machine. -/
theorem c5_load_flags_frame_witness :
    decode ((resetMachine c4Mem 0xFFFC).mem (resetMachine c4Mem 0xFFFC).PC % 256)
      = some (.A, .imm) ∧
    ((step (resetMachine c4Mem 0xFFFC)).C = (resetMachine c4Mem 0xFFFC).C ∧
     (step (resetMachine c4Mem 0xFFFC)).I = (resetMachine c4Mem 0xFFFC).I ∧
     (step (resetMachine c4Mem 0xFFFC)).D = (resetMachine c4Mem 0xFFFC).D ∧
     (step (resetMachine c4Mem 0xFFFC)).B = (resetMachine c4Mem 0xFFFC).B ∧
     (step (resetMachine c4Mem 0xFFFC)).V = (resetMachine c4Mem 0xFFFC).V ∧
     (step (resetMachine c4Mem 0xFFFC)).Z =
       (regValue (step (resetMachine c4Mem 0xFFFC)) .A == 0) ∧
     (step (resetMachine c4Mem 0xFFFC)).N =
       Nat.testBit (regValue (step (resetMachine c4Mem 0xFFFC)) .A) 7) :=
  ⟨by decide,
   c5_load_flags_frame (resetMachine c4Mem 0xFFFC) .A .imm (by decide)⟩

/-- C6: executing the same program twice from identical initial state
(same object file, same region bounds, same budget, same logging setup)
produces identical trace output. -/
theorem c6_trace_deterministic (cfg : SystemCfg)
    (ram1 ram2 regs1 regs2 prog1 prog2 : Nat → Nat)
    (len budget : Nat) (logging openOk : Bool)
    (hram : ∀ a, ram1 a = ram2 a) (hregs : ∀ a, regs1 a = regs2 a)
    (hprog : ∀ i, prog1 i = prog2 i) :
    (executeProgram cfg ram1 regs1 prog1 len budget logging openOk).trace =
    (executeProgram cfg ram2 regs2 prog2 len budget logging openOk).trace := by
  rw [funext hram, funext hregs, funext hprog]

/-- Witness for C6 at a concrete two-instruction run of the LoggingTests
configuration. -/
theorem c6_trace_deterministic_witness :
    (∀ a : Nat, (fun _ : Nat => 0) a = (fun _ : Nat => 0) a) ∧
    (∀ a : Nat, (fun _ : Nat => 0) a = (fun _ : Nat => 0) a) ∧
    (∀ i : Nat, (fun _ : Nat => 0xEA) i = (fun _ : Nat => 0xEA) i) ∧
    (executeProgram loggingTestsCfg (fun _ => 0) (fun _ => 0)
        (fun _ => 0xEA) 0x8000 2 true true).trace =
      (executeProgram loggingTestsCfg (fun _ => 0) (fun _ => 0)
        (fun _ => 0xEA) 0x8000 2 true true).trace :=
  ⟨fun _ => rfl, fun _ => rfl, fun _ => rfl,
   c6_trace_deterministic loggingTestsCfg (fun _ => 0) (fun _ => 0)
     (fun _ => 0) (fun _ => 0) (fun _ => 0xEA) (fun _ => 0xEA)
     0x8000 2 true true (fun _ => rfl) (fun _ => rfl) (fun _ => rfl)⟩

/-- C7: when the trace output file cannot be opened, executeProgram
clears the trace-enable flag, emits no trace output, still runs the full
instruction budget, and leaves the whole CPU-visible execution state
exactly as a run with a successfully opened sink; nothing is surfaced to
the caller. -/
theorem c7_trace_open_failure (cfg : SystemCfg) (ram regs prog : Nat → Nat)
    (len budget : Nat) (logging : Bool) :
    (executeProgram cfg ram regs prog len budget logging false).busLog = false ∧
    (executeProgram cfg ram regs prog len budget logging false).trace = [] ∧
    (executeProgram cfg ram regs prog len budget logging false).instrCount = budget ∧
    coreOf (executeProgram cfg ram regs prog len budget logging false) =
      coreOf (executeProgram cfg ram regs prog len budget logging true) := by
  refine ⟨?_, ?_, ?_, ?_⟩
  · simp [executeProgram, run_busLog]
  · simp [executeProgram, run_trace_off, resetMachine]
  · simp [executeProgram, run_instrCount, resetMachine]
  · exact run_core_congr budget _ _ rfl

/-- C8: the claim says System construction fails with a
ConfigurationError for overlapping or inverted non-disabled regions, but
the source constructor performs no bounds validation at all: construction
succeeds for every configuration, including one whose RAM window overlaps
both the register and ROM windows. -/
theorem c8_construction_never_fails :
    (∀ cfg : SystemCfg, systemConstruct cfg = Except.ok cfg) ∧
    regionsWellFormed c8BadCfg = false ∧
    systemConstruct c8BadCfg = Except.ok c8BadCfg :=
  ⟨fun _ => rfl, by decide, rfl⟩

/-- C9: the claim says the golden-file comparison converts CRLF to LF
before comparing, but the conversion function of the source is the
identity on every input, so two traces that differ only in CRLF versus LF
line endings compare unequal. -/
theorem c9_line_ending_comparison :
    (∀ l : List Char, convertLineEndings l = l) ∧
    crlfTrace ≠ lfTrace ∧
    compareFiles crlfTrace lfTrace = false := by
  refine ⟨?_, by decide, by decide⟩
  intro l
  induction l using convertLineEndings.induct <;>
    simp_all [convertLineEndings]

/-- C10: the reset-vector bytes executeProgram reads to initialize PC are
fetched from the ROM array directly, not through the bus, and logging is
only enabled afterwards: with a zero budget the trace is empty, and with
a positive budget and logging enabled the first trace record is the READ
of the first opcode fetch performed by cpu.execute, at the reset PC, at
cycle 0. -/
theorem c10_reset_vector_not_traced (cfg : SystemCfg)
    (ram regs prog : Nat → Nat) (len : Nat) :
    (∀ logging openOk : Bool,
      (executeProgram cfg ram regs prog len 0 logging openOk).trace = []) ∧
    (∀ n : Nat,
      (executeProgram cfg ram regs prog len (n + 1) true true).trace.head? =
        some ⟨.R,
          loadedRom prog len (0xFFFC - 0x8000) |||
            (loadedRom prog len (0xFFFD - 0x8000) <<< 8),
          busView cfg ram regs (loadedRom prog len)
            (loadedRom prog len (0xFFFC - 0x8000) |||
             (loadedRom prog len (0xFFFD - 0x8000) <<< 8)) % 256,
          0⟩) := by
  constructor
  · intro logging openOk
    rfl
  · intro n
    exact head?_of_prefix _ _ _
      (run_trace_extends n _)
      (step_trace_head _ rfl rfl)

end Emu65C02
